import Mathlib

/-!
# docker-dev: the application pool and the per-application state machine

A shallow embedding of `dev/app.go`.

* Pointers `*App` are handles: indices into `World.heap`.
* `pool.apps` (a Go `map[string]*App`) is an `AList`, a key-unique association list.
* Channels are modelled by whether they are closed: `readyChan`, and the tomb's
  `Dying()` and `Dead()` channels.
* Time is an integer count of nanoseconds; `int` has 64 bits; file contents are text.
* Library and operating-system calls whose result the code only inspects
  (`os.Stat`, `os.Readlink`, `filepath.Join`, `url.Parse`, ...) are fields of `OS`.
* The event sink `Events` is an append-only log in `World.events`.
-/

namespace Dev

/-! ## Errors -/

/-- Go `error` values that the code produces or passes on. -/
inductive GoError where
  | ErrUnknownApp
  | ErrUnexpectedExit (lastLogLine : String)
  | ErrStillAlive
  | notExist
  | other (msg : String)
  | context (e : GoError) (msg : String)
  deriving DecidableEq, Repr

/-- A Go `error` interface value; `none` is `nil`. -/
abbrev error := Option GoError

/-! ## tomb.Tomb (gopkg.in/tomb.v2), as far as `app.go` uses it -/

/-- The tomb of one application: `dying` is "the channel `Dying()` is closed",
`dead` is "the channel `Dead()` is closed" (every tracked goroutine returned),
`reason` is the value `Err()` returns. -/
structure Tomb where
  dying : Bool
  dead : Bool
  reason : error
  deriving DecidableEq, Repr

/-- The zero tomb: alive, `Err()` is `ErrStillAlive`. -/
def Tomb.zero : Tomb := { dying := false, dead := false, reason := some .ErrStillAlive }

/-- `t.Err()`. -/
def Tomb.Err (t : Tomb) : error := t.reason

/-- `t.Kill(reason)`: the first call closes `Dying()` and records the reason; a
later call only replaces a recorded `nil` reason. -/
def Tomb.Kill (t : Tomb) (reason : error) : Tomb :=
  if t.reason = some .ErrStillAlive then { t with dying := true, reason := reason }
  else if t.reason = none then { t with reason := reason }
  else t

/-! ## App -/

/-- The fields of `App` that the pool and the state machine read or write.
`hasCommand` is `Command != nil` (process-backed); `readyChan` is "closed". -/
structure App where
  Name : String
  Scheme : String
  Host : String
  Port : Int
  hasCommand : Bool
  pid : Nat
  Public : Bool
  address : String
  dir : String
  t : Tomb
  lastUse : Int
  readyChan : Bool
  deriving DecidableEq, Repr

/-- `fmt.Sprintf("%s:%d", host, port)`. -/
def hostPort (host : String) (port : Int) : String := host ++ ":" ++ toString port

/-- `SetAddress` configures the URL that the app is running on. -/
def App.SetAddress (a : App) (scheme host : String) (port : Int) : App :=
  let a := { a with Scheme := scheme, Host := host, Port := port }
  if a.Port = 0 then { a with address := host }
  else { a with address := hostPort a.Host a.Port }

/-- `Address` returns the URL to this app. -/
def App.Address (a : App) : String :=
  if a.Port = 0 then a.Host else hostPort a.Host a.Port

/-- The constant `Booting` (`iota`). -/
def Booting : Nat := 0
/-- The constant `Running`. -/
def Running : Nat := 1
/-- The constant `Dead`. -/
def Dead : Nat := 2

/-- `Status`: two nested non-blocking selects, the tomb first. -/
def App.Status (a : App) : Nat :=
  if a.t.dying then Dead
  else if a.readyChan then Running
  else Dead

/-- `WaitTilReady`. The result is `none` while neither channel is closed (the
select blocks). `pick` is the runtime's choice when both cases of the outer
select are ready: `true` takes `<-a.readyChan`, `false` takes `<-a.t.Dying()`.
Otherwise the result is the returned error and the application afterwards. -/
def App.WaitTilReady (a : App) (now : Int) (pick : Bool) : Option (error × App) :=
  let onReady : error × App :=
    -- double check we aren't also dying
    if a.t.dying then (a.t.Err, a) else (none, { a with lastUse := now })
  let onDying : error × App := (a.t.Err, a)
  match a.readyChan, a.t.dying with
  | false, false => none
  | true, false => some onReady
  | false, true => some onDying
  | true, true => if pick then some onReady else some onDying

/-! ## Library functions used by `readProxy` and `App` -/

/-- `unicode.IsSpace`. -/
def isSpace (c : Char) : Bool :=
  let n := c.toNat
  n = 0x09 || n = 0x0A || n = 0x0B || n = 0x0C || n = 0x0D || n = 0x20 ||
  n = 0x85 || n = 0xA0 || n = 0x1680 || (0x2000 ≤ n && n ≤ 0x200A) ||
  n = 0x2028 || n = 0x2029 || n = 0x202F || n = 0x205F || n = 0x3000

/-- `bytes.TrimSpace` on text: leading and trailing white space removed. -/
def TrimSpace (s : String) : String :=
  String.mk ((s.data.dropWhile isSpace).reverse.dropWhile isSpace).reverse

/-- Value of a non-empty run of decimal digits, most significant first. -/
def digitsValue : List Char → Nat → Option Nat
  | [], acc => some acc
  | c :: cs, acc =>
    if c.isDigit then digitsValue cs (acc * 10 + (c.toNat - 48)) else none

/-- `strconv.Atoi` with a 64-bit `int`: an optional sign, then one or more
decimal digits, the value within the range of `int`; `none` is a
`*strconv.NumError`. -/
def Atoi (s : String) : Option Int :=
  let body : Bool × List Char :=
    match s.data with
    | '-' :: r => (true, r)
    | '+' :: r => (false, r)
    | cs => (false, cs)
  match body.2 with
  | [] => none
  | ds =>
    match digitsValue ds 0 with
    | none => none
    | some n =>
      let v : Int := if body.1 then -(n : Int) else (n : Int)
      if -(2 : Int) ^ 63 ≤ v ∧ v < (2 : Int) ^ 63 then some v else none

/-- `strings.Replace(s, old, new, n)` for one-character `old` and `new`: the first
`n` occurrences are replaced, all of them when `n < 0`. -/
def Replace : List Char → Char → Char → Int → List Char
  | [], _, _, _ => []
  | c :: cs, old, new, n =>
    if n = 0 then c :: cs
    else if c = old then new :: Replace cs old new (n - 1)
    else c :: Replace cs old new n

/-- The line `possible := strings.Replace(name, "-", "/", -1)` of `App`. -/
def dashExpand (name : String) : String := String.mk (Replace name.data '-' '/' (-1))

/-- The transform as the specification words it: only the first `-` of the name
becomes a path separator. -/
def specFirstDash (name : String) : String := String.mk (Replace name.data '-' '/' 1)

/-- Result of `os.Stat`: the `FileInfo` fields read by the code, or the error. -/
inductive StatResult where
  | ok (name : String) (isDir : Bool)
  | notExist
  | failed (e : GoError)
  deriving DecidableEq, Repr

/-- The error value of a `StatResult`. -/
def StatResult.err : StatResult → error
  | .ok _ _ => none
  | .notExist => some .notExist
  | .failed e => some e

/-- The operating system and library calls the pool makes. -/
structure OS where
  /-- Function `filepath.Join`. -/
  Join : String → String → String
  /-- Function `os.Stat`. -/
  Stat : String → StatResult
  /-- Whether `os.Lstat` returns a nil error. -/
  Lstat : String → Bool
  /-- Function `os.Readlink`; the destination is `""` on error. -/
  Readlink : String → String
  /-- Function `ioutil.ReadFile`. -/
  ReadFile : String → Except GoError String
  /-- Function `os.MkdirAll`. -/
  MkdirAll : String → error
  /-- The error of `cmd.StdoutPipe()` for the command of a directory and port. -/
  StdoutPipe : String → Int → error
  /-- Method `cmd.Start()` for the command of a directory and port: the pid of
  the started process, or the error. -/
  Start : String → Int → Except GoError Nat
  /-- Function `rand.Intn`. -/
  Intn : Int → Int
  /-- Delivering `SIGTERM` to a pid. -/
  Signal : Nat → error
  /-- Function `url.Parse`: the fields `Scheme` and `Host` of the URL. -/
  urlParse : String → Except GoError (String × String)
  /-- Function `net.SplitHostPort`. -/
  SplitHostPort : String → Except GoError (String × String)

/-! ## The pool and the world -/

/-- An argument of an event: a string, an integer, a `time.Duration` (rendered
by its `String()`), or an error (rendered by its `Error()`). -/
inductive Arg where
  | s (v : String)
  | i (v : Int)
  | d (v : Int)
  | e (v : GoError)
  deriving DecidableEq, Repr

/-- One call of `Events.Add`: the event name and its arguments. -/
structure Event where
  name : String
  args : List Arg
  deriving DecidableEq, Repr

/-- The registry `pool.apps`. -/
abbrev Registry := AList (fun _ : String => Nat)

/-- `AppPool` together with everything it points to: the exported
configuration, the registry, the allocated applications, the event log, the
calls made to `AppClosed` and the clock. `AppClosed` is "the callback is set". -/
structure World where
  Dir : String
  IdleTime : Int
  AppClosed : Bool
  apps : Registry
  heap : List App
  events : List Event
  closed : List Nat
  now : Int

/-- `pool.Events.Add(name, args...)`. -/
def World.event (w : World) (name : String) (args : List Arg) : World :=
  { w with events := w.events ++ [{ name := name, args := args }] }

/-- `a.eventAdd(name, args...)`: the arguments are prefixed with the app name. -/
def World.eventAdd (w : World) (a : App) (name : String) (args : List Arg) : World :=
  w.event name ([.s "app", .s a.Name] ++ args)

/-- Overwrite the application behind a handle. -/
def setApp : List App → Nat → App → List App
  | [], _, _ => []
  | _ :: xs, 0, a => a :: xs
  | x :: xs, n + 1, a => x :: setApp xs n a

/-- `GeneratePort`. -/
def GeneratePort (os : OS) : Int :=
  let low : Int := 3001
  let hi : Int := 3999
  low + os.Intn (hi - low)


/-- `time.Since(t)` at clock `now`: a `Duration`, saturating at the ends of `int64`. -/
def Since (now t : Int) : Int :=
  let d := now - t
  if d < -(2 : Int) ^ 63 then -(2 : Int) ^ 63
  else if (2 : Int) ^ 63 ≤ d then (2 : Int) ^ 63 - 1
  else d

/-- `Kill` terminates the process the app is running on: the events, and the
error of delivering the signal. -/
def App.Kill (os : OS) (w : World) (a : App) (reason : String) : error × World :=
  let w := w.eventAdd a "killing_app" [.s "pid", .i a.pid, .s "reason", .s reason]
  match os.Signal a.pid with
  | some err => (some err, w.eventAdd a "killing_error" [.s "pid", .i a.pid, .s "error", .e err])
  | none => (none, w)

namespace AppPool

/-- `maybeIdle`: check if an app is idle by diffing the last use time with the
current time. `none` stands for a handle that points nowhere. -/
def maybeIdle (pool : World) (app : Nat) : Option (Bool × World) :=
  match pool.heap[app]? with
  | none => none
  | some a =>
    let diff := Since pool.now a.lastUse
    if diff > pool.IdleTime then
      let pool := pool.eventAdd a "idle_app" [.s "last_used", .d diff]
      some (true, { pool with apps := pool.apps.erase a.Name })
    else
      some (false, pool)

/-- The loop of `remove`: over the entries of the registry, every name whose
candidate is `app` is deleted. -/
def removeLoop (app : Nat) (entries : List (Sigma fun _ : String => Nat)) (apps : Registry) :
    Registry :=
  entries.foldl (fun m e => if e.2 = app then m.erase e.1 else m) apps

/-- `remove`: find all instance references so aliases are removed too, then
call `AppClosed` when it is set. -/
def remove (pool : World) (app : Nat) : World :=
  let pool := { pool with apps := removeLoop app pool.apps.entries pool.apps }
  if pool.AppClosed then { pool with closed := pool.closed ++ [app] } else pool

/-- `readProxy`: the application described by the file at `path`, closed
`readyChan` and a live tomb, and the event it logs. -/
def readProxy (os : OS) (pool : World) (name path : String) : Except GoError App × World :=
  match os.ReadFile path with
  | .error err => (.error err, pool)
  | .ok data =>
    let app : App :=
      { Name := name, Scheme := "", Host := "", Port := 0, hasCommand := false, pid := 0,
        Public := false, address := "", dir := "", t := Tomb.zero,
        lastUse := pool.now, readyChan := false }
    let data := TrimSpace data
    let parsed : Except GoError App :=
      match Atoi data with
      | some port => .ok (app.SetAddress "http" "127.0.0.1" port)
      | none =>
        match os.urlParse data with
        | .error err => .error err
        | .ok (scheme, uhost) =>
          match os.SplitHostPort uhost with
          | .ok (host, sport) =>
            match Atoi sport with
            | none => .error (.other "strconv.Atoi")
            | some port => .ok (app.SetAddress scheme host port)
          | .error _ => .ok (app.SetAddress scheme uhost 0)
    match parsed with
    | .error err => (.error err, pool)
    | .ok app =>
      let pool := pool.eventAdd app "proxy_created"
        [.s "destination", .s (app.Scheme ++ "://" ++ app.Address)]
      -- app.t.Go(...) keeps the tomb alive; close(app.readyChan)
      (.ok { app with readyChan := true }, pool)

/-- `LaunchApp` boots the app with docker-compose: the application in the state
it has when `LaunchApp` returns (tasks started, `readyChan` open). -/
def LaunchApp (os : OS) (pool : World) (name dir : String) : Except GoError App × World :=
  let tmpDir := os.Join dir "tmp"
  match os.MkdirAll tmpDir with
  | some err => (.error err, pool)
  | none =>
    match os.Stat (os.Join dir "docker-compose.yml") with
    | .notExist => (.error .notExist, pool)
    | _ =>
      let port := GeneratePort os
      match os.StdoutPipe dir port with
      | some err => (.error err, pool)
      | none =>
        match os.Start dir port with
        | .error err => (.error (.context err "starting app"), pool)
        | .ok pid =>
          let app : App :=
            { Name := name, Scheme := "", Host := "", Port := port, hasCommand := true,
              pid := pid, Public := false, address := "", dir := dir, t := Tomb.zero,
              lastUse := pool.now, readyChan := false }
          let pool := pool.eventAdd app "booting_app" [.s "port", .i app.Port]
          let app :=
            match os.Stat (os.Join dir "public") with
            | .ok _ isDir => { app with Public := isDir }
            | _ => app
          (.ok (app.SetAddress "http" "127.0.0.1" port), pool)

/-- Lines 611 to 622 of `App`: the canonical name and the alias name, from
`os.Stat(destPath)`. -/
def canonical (os : OS) (name destPath : String) : String × String :=
  -- Handle multiple symlinks to the same app
  match os.Stat destPath with
  | .ok destName _ => if destName ≠ name then (destName, name) else (name, "")
  | _ => (name, "")

/-- Lines 624 to 637 of `App`: the instance cached under the canonical name, or
else a newly constructed one placed on the heap; `err` is the error left by
`os.Stat(destPath)`, which a construction overwrites. -/
def cachedOrNew (os : OS) (pool : World) (canonicalName path : String) (isDir : Bool)
    (err : error) : Except GoError Nat × World :=
  match pool.apps.lookup canonicalName with
  | some app =>
    match err with
    | some err => (.error err, pool)
    | none => (.ok app, pool)
  | none =>
    let made :=
      if isDir then LaunchApp os pool canonicalName path
      else readProxy os pool canonicalName path
    match made.1 with
    | .error err => (.error err, made.2)
    | .ok a => (.ok made.2.heap.length, { made.2 with heap := made.2.heap ++ [a] })

/-- Lines 611 to 645 of `App`, reached from the first or the retried lookup with
the current `path`, `stat.IsDir()` and `destPath`: the canonical name, the
cached or newly constructed application, and the registration. -/
def register (os : OS) (pool : World) (name path : String) (isDir : Bool)
    (destPath : String) : Except GoError Nat × World :=
  let names := canonical os name destPath
  let canonicalName := names.1
  let aliasName := names.2
  let found := cachedOrNew os pool canonicalName path isDir (os.Stat destPath).err
  match found.1 with
  | .error err =>
    (.error err, found.2.event "error_starting_app" [.s "app", .s canonicalName, .s "error", .e err])
  | .ok app =>
    let pool := found.2
    let pool := { pool with apps := pool.apps.insert canonicalName app }
    let pool :=
      if aliasName ≠ "" then { pool with apps := pool.apps.insert aliasName app } else pool
    (.ok app, pool)

/-- `App` looks up an app in the pool or adds it. -/
def App (os : OS) (pool : World) (name : String) : Except GoError Nat × World :=
  match pool.apps.lookup name with
  | some app => (.ok app, pool)
  | none =>
    let path := os.Join pool.Dir name
    let pool := pool.event "app_lookup" [.s "path", .s path]
    let destPath := os.Readlink path
    match os.Stat path with
    | .ok _ isDir => register os pool name path isDir destPath
    | .failed err => (.error err, pool)
    | .notExist =>
      -- Check there might be a link there but it's not valid
      let pool :=
        if os.Lstat path then pool.event "bad_symlink" [.s "path", .s path, .s "dest", .s destPath]
        else pool
      -- If possible, also try expanding - to / to allow for apps in subdirs
      let possible := dashExpand name
      if possible = name then (.error .ErrUnknownApp, pool)
      else
        let path := os.Join pool.Dir possible
        let pool := pool.event "app_lookup" [.s "path", .s path]
        let destPath := os.Readlink path
        match os.Stat path with
        | .ok _ isDir => register os pool name path isDir destPath
        | .failed err => (.error err, pool)
        | .notExist =>
          let pool :=
            if os.Lstat path then
              pool.event "bad_symlink" [.s "path", .s path, .s "dest", .s destPath]
            else pool
          (.error .ErrUnknownApp, pool)

/-- What `app.t.Wait()` waits for once the tomb is dying: every task of the
application returns. For a process-backed application the output watcher
kills the process, waits for it, asks the pool to remove the application and
logs the shutdown, and a readiness poller that is still polling fails with
"app died before booting". The single task of a proxy-backed application just
returns. Afterwards `Dead()` is closed. -/
def wait (os : OS) (pool : World) (app : Nat) : World :=
  match pool.heap[app]? with
  | none => pool
  | some a =>
    if a.t.dead || !a.t.dying then pool
    else if a.hasCommand then
      let pool := (a.Kill os pool "detected interval shutdown").2
      let pool := remove pool app
      let pool := pool.eventAdd a "shutdown" []
      let polled : World × Tomb :=
        if a.readyChan then (pool, a.t)
        else (pool.eventAdd a "dying_on_start" [],
              a.t.Kill (some (.other "app died before booting")))
      { polled.1 with
        heap := setApp polled.1.heap app { a with t := { polled.2 with dead := true } } }
    else
      { pool with heap := setApp pool.heap app { a with t := { a.t with dead := true } } }

/-- The first loop of `Purge` after the snapshot: `purging_app` is logged and
the tomb is killed with a nil reason. -/
def killOne (pool : World) (app : Nat) : World :=
  match pool.heap[app]? with
  | none => pool
  | some a =>
    let pool := pool.eventAdd a "purging_app" []
    { pool with heap := setApp pool.heap app { a with t := a.t.Kill none } }

/-- `Purge` kills all apps. -/
def Purge (os : OS) (pool : World) : World :=
  let apps : List Nat := pool.apps.entries.map (fun e => e.2)
  let pool := apps.foldl killOne pool
  let pool := apps.foldl (wait os) pool
  pool.event "apps_purged" []

end AppPool

/-! ## Concrete file systems and worlds used to evaluate the code -/

namespace Example

/-- A node of a small file system. -/
inductive Node where
  | dir
  | file (content : String)
  | link (target : String)
  deriving DecidableEq, Repr

/-- The node stored at a path. -/
def node (fs : List (String × Node)) (p : String) : Option Node :=
  (fs.find? (fun e => e.1 = p)).map (fun e => e.2)

/-- The last element of a path. -/
def baseName (p : String) : String :=
  String.mk (p.data.reverse.takeWhile (fun c => c ≠ '/')).reverse

/-- `os.Stat` on the small file system: a link is followed once, and `Name()` is
the base name of the path asked for. -/
def stat (fs : List (String × Node)) (p : String) : StatResult :=
  match node fs p with
  | none => .notExist
  | some .dir => .ok (baseName p) true
  | some (.file _) => .ok (baseName p) false
  | some (.link t) =>
    match node fs t with
    | some .dir => .ok (baseName p) true
    | some (.file _) => .ok (baseName p) false
    | _ => .notExist

/-- `ioutil.ReadFile` on the small file system. -/
def readFile (fs : List (String × Node)) (p : String) : Except GoError String :=
  match node fs p with
  | some (.file c) => .ok c
  | some (.link t) =>
    match node fs t with
    | some (.file c) => .ok c
    | _ => .error .notExist
  | some .dir => .error (.other "is a directory")
  | none => .error .notExist

/-- An operating system over a small file system of clean absolute paths, on
which `filepath.Join` is concatenation with a separator. Processes start with
pid 4242, `rand.Intn` returns 7, and no text parses as a URL. -/
def os (fs : List (String × Node)) : OS where
  Join := fun d n => if n = "" then d else d ++ "/" ++ n
  Stat := stat fs
  Lstat := fun p => (node fs p).isSome
  Readlink := fun p => match node fs p with
    | some (.link t) => t
    | _ => ""
  ReadFile := readFile fs
  MkdirAll := fun _ => none
  StdoutPipe := fun _ _ => none
  Start := fun _ _ => .ok 4242
  Intn := fun _ => 7
  Signal := fun _ => none
  urlParse := fun _ => .error (.other "parse")
  SplitHostPort := fun _ => .error (.other "missing port in address")

/-- A pool on `/pool` with an idle time of ten seconds, no callback, an empty
registry and no applications, at clock zero. -/
def emptyPool : World :=
  { Dir := "/pool", IdleTime := 10000000000, AppClosed := false, apps := ∅, heap := [],
    events := [], closed := [], now := 0 }

/-- A process-backed application that is up: `readyChan` closed, tomb alive. -/
def runningApp (name : String) : App :=
  { Name := name, Scheme := "http", Host := "127.0.0.1", Port := 3008, hasCommand := true,
    pid := 4242, Public := false, address := "127.0.0.1:3008", dir := "/pool/" ++ name,
    t := Tomb.zero, lastUse := 0, readyChan := true }

/-- A pool in which `blog` runs and `blog-staging` is an alias of it, one minute
after the last use of the application. -/
def aliasedPool : World :=
  { emptyPool with
    apps := (((∅ : Registry).insert "blog" 0).insert "blog-staging" 0),
    heap := [runningApp "blog"], now := 60000000000 }

/-- The pool directory holds the project `blog` and the link `blog-staging` to it. -/
def linkFS : List (String × Node) :=
  [("/pool/blog", .dir), ("/pool/blog/docker-compose.yml", .file ""),
   ("/pool/blog-staging", .link "/pool/blog")]

/-- A pool in which `blog` runs and no alias is registered yet. -/
def blogPool : World :=
  { emptyPool with apps := (∅ : Registry).insert "blog" 0, heap := [runningApp "blog"] }

/-- The pool directory itself is a link to `/srv/apps`. -/
def rootLinkFS : List (String × Node) :=
  [("/pool", .link "/srv/apps"), ("/srv/apps", .dir)]

/-- A pool in which an application is registered under the name `apps`. -/
def appsPool : World :=
  { emptyPool with apps := (∅ : Registry).insert "apps" 0, heap := [runningApp "apps"] }

/-- The pool directory holds the project `b-c` inside the directory `a`. -/
def nestedFS : List (String × Node) :=
  [("/pool/a", .dir), ("/pool/a/b-c", .dir), ("/pool/a/b-c/docker-compose.yml", .file "")]

/-- The pool directory holds the proxy descriptor `api` with a port number. -/
def proxyFS : List (String × Node) :=
  [("/pool/api", .file " 8080\n")]

/-- The application that `readProxy` builds from the descriptor `api` at clock zero. -/
def apiApp : App :=
  { Name := "api", Scheme := "http", Host := "127.0.0.1", Port := 8080, hasCommand := false,
    pid := 0, Public := false, address := "127.0.0.1:8080", dir := "", t := Tomb.zero,
    lastUse := 0, readyChan := true }

/-- An application that is neither ready nor dying. -/
def bootingApp : App :=
  { runningApp "blog" with readyChan := false }

/-- An application that became ready and was then killed with an error. -/
def dyingApp : App :=
  { runningApp "blog" with
    t := { dying := true, dead := false, reason := some (.ErrUnexpectedExit "boom") } }

end Example

/-! ## Lemmas on the library functions -/

theorem Replace_of_not_mem (old new : Char) :
    ∀ (l : List Char) (n : Int), old ∉ l → Replace l old new n = l := by
  intro l
  induction l with
  | nil => intro n _; rfl
  | cons c cs ih =>
    intro n h
    have hc : c ≠ old := fun e => h (by simp [e])
    have hcs : old ∉ cs := fun e => h (List.mem_cons_of_mem _ e)
    unfold Replace
    by_cases hn : n = 0
    · simp [hn]
    · simp [hn, hc, ih _ hcs]

theorem Replace_neg_eq_map (old new : Char) :
    ∀ (l : List Char) (n : Int), n < 0 →
      Replace l old new n = l.map (fun c => if c = old then new else c) := by
  intro l
  induction l with
  | nil => intro n _; rfl
  | cons c cs ih =>
    intro n h
    have hn : n ≠ 0 := by omega
    unfold Replace
    by_cases hc : c = old
    · simp [hn, hc, ih (n - 1) (by omega)]
    · simp [hn, hc, ih n h]

theorem dashExpand_eq_map (name : String) :
    dashExpand name = String.mk (name.data.map (fun c => if c = '-' then '/' else c)) := by
  unfold dashExpand
  rw [Replace_neg_eq_map _ _ _ _ (by decide)]

theorem dashExpand_eq_self (name : String) (h : '-' ∉ name.data) : dashExpand name = name := by
  unfold dashExpand
  rw [Replace_of_not_mem _ _ _ _ h]

theorem dashExpand_ne_self (name : String) (h : '-' ∈ name.data) : dashExpand name ≠ name := by
  intro e
  rw [dashExpand_eq_map] at e
  have e2 : name.data.map (fun c => if c = '-' then '/' else c) = name.data :=
    congrArg String.data e
  have key : ∀ l : List Char, '-' ∈ l → l.map (fun c => if c = '-' then '/' else c) ≠ l := by
    intro l
    induction l with
    | nil => intro hm; simp at hm
    | cons c cs ih =>
      intro hm hl
      simp only [List.map_cons, List.cons.injEq] at hl
      rcases List.mem_cons.mp hm with hc | hc
      · have h1 := hl.1
        rw [← hc] at h1
        simp at h1
      · exact ih hc hl.2
  exact key _ h e2

/-! ## Lemmas on the registry loop of `remove` -/

theorem lookup_removeLoop_none (app : Nat) (k : String) :
    ∀ (l : List (Sigma fun _ : String => Nat)) (m : Registry),
      m.lookup k = none → (AppPool.removeLoop app l m).lookup k = none := by
  intro l
  induction l with
  | nil => intro m h; simpa [AppPool.removeLoop] using h
  | cons e l ih =>
    intro m h
    simp only [AppPool.removeLoop, List.foldl_cons]
    apply ih
    by_cases he : e.2 = app
    · simp only [he, if_true]
      by_cases hk : k = e.1
      · rw [hk]; exact AList.lookup_erase _ _
      · rw [AList.lookup_erase_ne hk]; exact h
    · simpa [he] using h

theorem lookup_removeLoop_mem (app : Nat) (k : String) :
    ∀ (l : List (Sigma fun _ : String => Nat)) (m : Registry),
      (⟨k, app⟩ : Sigma fun _ : String => Nat) ∈ l →
        (AppPool.removeLoop app l m).lookup k = none := by
  intro l
  induction l with
  | nil => intro m h; simp at h
  | cons e l ih =>
    intro m h
    rcases List.mem_cons.mp h with he | he
    · simp only [AppPool.removeLoop, List.foldl_cons]
      apply lookup_removeLoop_none
      rw [← he]
      simp only [if_true]
      exact AList.lookup_erase _ _
    · simp only [AppPool.removeLoop, List.foldl_cons]
      exact ih _ he

theorem lookup_removeLoop_not_mem (app : Nat) (k : String) :
    ∀ (l : List (Sigma fun _ : String => Nat)) (m : Registry),
      (⟨k, app⟩ : Sigma fun _ : String => Nat) ∉ l →
        (AppPool.removeLoop app l m).lookup k = m.lookup k := by
  intro l
  induction l with
  | nil => intro m _; rfl
  | cons e l ih =>
    intro m h
    have hne : e ≠ ⟨k, app⟩ := fun c => h (by simp [c])
    have hl : (⟨k, app⟩ : Sigma fun _ : String => Nat) ∉ l := fun c => h (List.mem_cons_of_mem _ c)
    simp only [AppPool.removeLoop, List.foldl_cons]
    have := ih (if e.2 = app then m.erase e.1 else m) hl
    simp only [AppPool.removeLoop] at this
    rw [this]
    by_cases he : e.2 = app
    · simp only [he, if_true]
      have hk : k ≠ e.1 := by
        intro c
        apply hne
        cases e with
        | mk a b => simp at he c; simp [he, c]
      exact AList.lookup_erase_ne hk
    · simp [he]

theorem lookup_remove (pool : World) (app : Nat) (k : String) :
    (AppPool.remove pool app).apps.lookup k =
      if pool.apps.lookup k = some app then none else pool.apps.lookup k := by
  have happs : (AppPool.remove pool app).apps =
      AppPool.removeLoop app pool.apps.entries pool.apps := by
    unfold AppPool.remove
    by_cases hc : pool.AppClosed <;> simp [hc]
  rw [happs]
  by_cases h : pool.apps.lookup k = some app
  · rw [if_pos h]
    apply lookup_removeLoop_mem
    exact AList.mem_lookup_iff.mp (by rw [h]; rfl)
  · rw [if_neg h]
    apply lookup_removeLoop_not_mem
    intro c
    exact h (by simpa using AList.mem_lookup_iff.mpr c)

/-! ## Lemmas on `App`, `register` and `readProxy` -/

theorem App_notExist_twice (os : OS) (pool : World) (name : String)
    (hnew : pool.apps.lookup name = none)
    (hstat : os.Stat (os.Join pool.Dir name) = .notExist)
    (hdash : '-' ∉ name.data ∨ os.Stat (os.Join pool.Dir (dashExpand name)) = .notExist) :
    (AppPool.App os pool name).1 = .error .ErrUnknownApp ∧
    (AppPool.App os pool name).2.heap = pool.heap ∧
    (AppPool.App os pool name).2.apps = pool.apps := by
  by_cases hp : dashExpand name = name
  · simp only [AppPool.App, hnew, hstat, hp, World.event]
    split_ifs <;> simp
  · have h2 : os.Stat (os.Join pool.Dir (dashExpand name)) = .notExist := by
      rcases hdash with h | h
      · exact absurd (dashExpand_eq_self name h) hp
      · exact h
    simp only [AppPool.App, hnew, hstat, hp, World.event]
    split_ifs <;> simp [h2]

theorem register_cached (os : OS) (pool : World) (name path destPath canonical : String)
    (isDir destIsDir : Bool) (x : Nat)
    (hname : name ≠ "")
    (hdest : os.Stat destPath = .ok canonical destIsDir)
    (hne : canonical ≠ name)
    (hx : pool.apps.lookup canonical = some x) :
    AppPool.register os pool name path isDir destPath =
      (.ok x, { pool with apps := (pool.apps.insert canonical x).insert name x }) := by
  have hc : AppPool.canonical os name destPath = (canonical, name) := by
    simp [AppPool.canonical, hdest, hne]
  unfold AppPool.register
  rw [hc]
  simp [AppPool.cachedOrNew, hx, hname, hdest, StatResult.err]

theorem readProxy_events (os : OS) (pool : World) (name path : String) (e : Event)
    (h : e ∈ pool.events) : e ∈ (AppPool.readProxy os pool name path).2.events := by
  unfold AppPool.readProxy
  split
  · exact h
  · simp only []
    split
    · exact h
    · simp [World.eventAdd, World.event, h]

theorem LaunchApp_events (os : OS) (pool : World) (name dir : String) (e : Event)
    (h : e ∈ pool.events) : e ∈ (AppPool.LaunchApp os pool name dir).2.events := by
  unfold AppPool.LaunchApp
  simp only []
  split
  · exact h
  · split
    · exact h
    · split
      · exact h
      · split
        · exact h
        · simp [World.eventAdd, World.event, h]

theorem cachedOrNew_events (os : OS) (pool : World) (canonicalName path : String)
    (isDir : Bool) (err : error) (e : Event) (h : e ∈ pool.events) :
    e ∈ (AppPool.cachedOrNew os pool canonicalName path isDir err).2.events := by
  have hmade : e ∈ (if isDir then AppPool.LaunchApp os pool canonicalName path
      else AppPool.readProxy os pool canonicalName path).2.events := by
    cases isDir
    · exact readProxy_events os pool canonicalName path e h
    · exact LaunchApp_events os pool canonicalName path e h
  unfold AppPool.cachedOrNew
  split
  · split <;> exact h
  · simp only []
    split <;> exact hmade

theorem register_events (os : OS) (pool : World) (name path destPath : String) (isDir : Bool)
    (e : Event) (h : e ∈ pool.events) :
    e ∈ (AppPool.register os pool name path isDir destPath).2.events := by
  have hf := cachedOrNew_events os pool (AppPool.canonical os name destPath).1 path isDir
    (os.Stat destPath).err e h
  unfold AppPool.register
  simp only []
  split
  · simp [World.event, hf]
  · split_ifs <;> exact hf

theorem SetAddress_flags (a : App) (scheme host : String) (port : Int) :
    (a.SetAddress scheme host port).readyChan = a.readyChan ∧
    (a.SetAddress scheme host port).t = a.t ∧
    (a.SetAddress scheme host port).Scheme = scheme ∧
    (a.SetAddress scheme host port).Host = host ∧
    (a.SetAddress scheme host port).Port = port := by
  unfold App.SetAddress
  by_cases h : port = 0 <;> simp [h]

theorem readProxy_ok_shape (os : OS) (pool : World) (name path : String) (app : App)
    (h : (AppPool.readProxy os pool name path).1 = .ok app) :
    app.readyChan = true ∧ app.t = Tomb.zero := by
  unfold AppPool.readProxy at h
  split at h
  · simp at h
  · simp only [] at h
    split at h
    · simp at h
    · rename_i a heq
      simp only [Except.ok.injEq] at h
      subst h
      refine ⟨rfl, ?_⟩
      show a.t = Tomb.zero
      split at heq
      · simp only [Except.ok.injEq] at heq
        rw [← heq, (SetAddress_flags _ _ _ _).2.1]
      · split at heq
        · simp at heq
        · split at heq
          · split at heq
            · simp at heq
            · simp only [Except.ok.injEq] at heq
              rw [← heq, (SetAddress_flags _ _ _ _).2.1]
          · simp only [Except.ok.injEq] at heq
            rw [← heq, (SetAddress_flags _ _ _ _).2.1]

/-! ## Properties of the pool and of the application state machine -/

open Example

/-- C1, the code evaluated at the failing input. In a pool where `blog` and its
alias `blog-staging` both map to application 0, last used one minute ago with
an idle time of ten seconds, `maybeIdle` returns true and deletes the key
`blog` only: `blog-staging` still maps to application 0 afterwards. On the same
pool `remove` deletes both keys. -/
theorem maybeIdle_leaves_alias_registered :
    (AppPool.maybeIdle aliasedPool 0).map
        (fun r => (r.1, r.2.apps.lookup "blog", r.2.apps.lookup "blog-staging"))
      = some (true, none, some 0) ∧
    (AppPool.remove aliasedPool 0).apps.lookup "blog" = none ∧
    (AppPool.remove aliasedPool 0).apps.lookup "blog-staging" = none := by
  decide

/-- C2, the code evaluated at the failing input. For an application whose death
signal has not fired and whose readiness signal is still open, `Status` returns
`Dead`, which is not `Booting`; and `Status` returns `Dead` or `Running` for
every application. -/
theorem Status_of_booting_app_is_Dead :
    (bootingApp.t.dying = false ∧ bootingApp.readyChan = false ∧
      bootingApp.Status = Dead ∧ bootingApp.Status ≠ Booting) ∧
    ∀ a : App, a.Status = Dead ∨ a.Status = Running := by
  refine ⟨by decide, ?_⟩
  intro a
  unfold App.Status
  split_ifs <;> simp

/-- C3 as stated fails for the empty lookup name. The pool directory is itself a
link whose target has the base name `apps`, `apps` is registered as application
0 and the empty name is not a key. `App` returns application 0, but the empty
name is not a key afterwards: `aliasName` is the lookup name and the empty
alias is the code's mark for "no alias". -/
theorem App_empty_name_gets_no_alias :
    appsPool.apps.lookup "" = none ∧
    (os rootLinkFS).Stat ((os rootLinkFS).Join appsPool.Dir "") = .ok "pool" true ∧
    (os rootLinkFS).Stat ((os rootLinkFS).Readlink ((os rootLinkFS).Join appsPool.Dir ""))
      = .ok "apps" true ∧
    "apps" ≠ "" ∧
    appsPool.apps.lookup "apps" = some 0 ∧
    (AppPool.App (os rootLinkFS) appsPool "").1 = .ok 0 ∧
    (AppPool.App (os rootLinkFS) appsPool "").2.apps.lookup "" = none := by
  refine ⟨by decide, by decide, by decide, by decide, by decide, rfl, by decide⟩

/-- C3 amended: for every non-empty lookup name that is not a registry key,
whose path under the pool directory exists and whose link target `os.Stat`
finds with a name (the canonical name) different from the lookup name, if the
registry holds `x` under the canonical name then `App` returns `x`, allocates
no application, and afterwards the lookup name and the canonical name map to
`x` and every other key is unchanged. -/
theorem App_registers_alias (os : OS) (pool : World) (name statName canonical : String)
    (isDir destIsDir : Bool) (x : Nat)
    (hname : name ≠ "")
    (hnew : pool.apps.lookup name = none)
    (hstat : os.Stat (os.Join pool.Dir name) = .ok statName isDir)
    (hdest : os.Stat (os.Readlink (os.Join pool.Dir name)) = .ok canonical destIsDir)
    (hne : canonical ≠ name)
    (hx : pool.apps.lookup canonical = some x) :
    (AppPool.App os pool name).1 = .ok x ∧
    (AppPool.App os pool name).2.heap = pool.heap ∧
    ∀ k, (AppPool.App os pool name).2.apps.lookup k =
      if k = name ∨ k = canonical then some x else pool.apps.lookup k := by
  have hApp : AppPool.App os pool name =
      (.ok x, { pool.event "app_lookup" [.s "path", .s (os.Join pool.Dir name)] with
                apps := (pool.apps.insert canonical x).insert name x }) := by
    unfold AppPool.App
    simp only [hnew, hstat]
    exact register_cached os _ name _ _ canonical isDir destIsDir x hname hdest hne hx
  rw [hApp]
  refine ⟨rfl, rfl, ?_⟩
  intro k
  show AList.lookup k ((pool.apps.insert canonical x).insert name x) = _
  by_cases hk : k = name
  · subst hk
    simp [AList.lookup_insert]
  · by_cases hk2 : k = canonical
    · subst hk2
      simp [AList.lookup_insert_ne hk, AList.lookup_insert]
    · simp [hk, hk2, AList.lookup_insert_ne hk, AList.lookup_insert_ne hk2]


/-- C3 amended, at the pool where `blog` runs and `blog-staging` links to it. -/
theorem App_registers_alias_witness :
    ("blog-staging" ≠ "" ∧ blogPool.apps.lookup "blog-staging" = none ∧
      blogPool.apps.lookup "blog" = some 0) ∧
    (AppPool.App (os linkFS) blogPool "blog-staging").1 = .ok 0 ∧
    (AppPool.App (os linkFS) blogPool "blog-staging").2.heap = blogPool.heap ∧
    ∀ k, (AppPool.App (os linkFS) blogPool "blog-staging").2.apps.lookup k =
      if k = "blog-staging" ∨ k = "blog" then some 0 else blogPool.apps.lookup k :=
  ⟨by decide,
   App_registers_alias (os linkFS) blogPool "blog-staging" "blog-staging" "blog" true true 0
    (by decide) (by decide) (by decide) (by decide) (by decide) (by decide)⟩

/-- C4 as stated fails. Nothing exists at `/pool/a-b-c`, and the project sits at
`/pool/a/b-c`, the path with only the first dash replaced. `App` does not find
it: the two paths it looks up are `/pool/a-b-c` and `/pool/a/b/c`, and it
returns `ErrUnknownApp`. -/
theorem App_retry_is_not_first_dash_only :
    (os nestedFS).Stat ((os nestedFS).Join emptyPool.Dir "a-b-c") = .notExist ∧
    (os nestedFS).Join emptyPool.Dir (specFirstDash "a-b-c") = "/pool/a/b-c" ∧
    (os nestedFS).Stat "/pool/a/b-c" = .ok "b-c" true ∧
    (AppPool.App (os nestedFS) emptyPool "a-b-c").1 = .error .ErrUnknownApp ∧
    (AppPool.App (os nestedFS) emptyPool "a-b-c").2.events =
      [⟨"app_lookup", [.s "path", .s "/pool/a-b-c"]⟩,
       ⟨"app_lookup", [.s "path", .s "/pool/a/b/c"]⟩] := by
  refine ⟨by decide, by decide, by decide, rfl, by decide⟩

/-- C4 amended: for every name that is not a registry key and for which no entry
exists at directory/name, the path `App` retries (it retries when the name
contains a dash) is directory/name2 where name2 is the name with every dash
replaced by a path separator: that path is logged as the second lookup, and
when nothing exists there either the result is `ErrUnknownApp`. -/
theorem App_retries_with_every_dash_replaced (os : OS) (pool : World) (name : String)
    (hnew : pool.apps.lookup name = none)
    (hstat : os.Stat (os.Join pool.Dir name) = .notExist)
    (hdash : '-' ∈ name.data) :
    dashExpand name = String.mk (name.data.map (fun c => if c = '-' then '/' else c)) ∧
    (⟨"app_lookup", [.s "path", .s (os.Join pool.Dir (dashExpand name))]⟩ : Event) ∈
      (AppPool.App os pool name).2.events ∧
    (os.Stat (os.Join pool.Dir (dashExpand name)) = .notExist →
      (AppPool.App os pool name).1 = .error .ErrUnknownApp) := by
  have hp := dashExpand_ne_self name hdash
  refine ⟨dashExpand_eq_map name, ?_, ?_⟩
  · cases hl : os.Lstat (os.Join pool.Dir name) <;>
    · simp only [AppPool.App, hnew, hstat, hp, World.event, if_false, hl, if_true]
      split
      · apply register_events
        simp
      · simp
      · split_ifs <;> simp
  · intro h2
    exact (App_notExist_twice os pool name hnew hstat (Or.inr h2)).1

/-- C4 amended, at the name `a-b-c`: the retried path is `/pool/a/b/c`. -/
theorem App_retries_with_every_dash_replaced_witness :
    (emptyPool.apps.lookup "a-b-c" = none ∧
      (os nestedFS).Stat ((os nestedFS).Join emptyPool.Dir "a-b-c") = .notExist ∧
      '-' ∈ "a-b-c".data) ∧
    dashExpand "a-b-c" = "a/b/c" ∧
    (os nestedFS).Join emptyPool.Dir (dashExpand "a-b-c") = "/pool/a/b/c" ∧
    (⟨"app_lookup", [.s "path", .s ((os nestedFS).Join emptyPool.Dir (dashExpand "a-b-c"))]⟩ :
      Event) ∈ (AppPool.App (os nestedFS) emptyPool "a-b-c").2.events :=
  ⟨by decide, by decide, by decide,
   (App_retries_with_every_dash_replaced (os nestedFS) emptyPool "a-b-c"
    (by decide) (by decide) (by decide)).2.1⟩

/-- C5: for every name that is not a registry key, if `os.Stat` reports
not-exist for directory/name, and the name contains no dash or `os.Stat`
reports not-exist for the dash-expanded path too, then `App` returns
`ErrUnknownApp` and no application, allocates nothing, and leaves the registry
unchanged. -/
theorem App_unknown_name (os : OS) (pool : World) (name : String)
    (hnew : pool.apps.lookup name = none)
    (hstat : os.Stat (os.Join pool.Dir name) = .notExist)
    (hdash : '-' ∉ name.data ∨ os.Stat (os.Join pool.Dir (dashExpand name)) = .notExist) :
    (AppPool.App os pool name).1 = .error .ErrUnknownApp ∧
    (AppPool.App os pool name).2.heap = pool.heap ∧
    (AppPool.App os pool name).2.apps = pool.apps :=
  App_notExist_twice os pool name hnew hstat hdash

/-- C5 at a name without a dash, in a pool directory that holds only `api`. -/
theorem App_unknown_name_witness :
    (emptyPool.apps.lookup "nope" = none ∧
      (os proxyFS).Stat ((os proxyFS).Join emptyPool.Dir "nope") = .notExist ∧
      '-' ∉ "nope".data) ∧
    (AppPool.App (os proxyFS) emptyPool "nope").1 = .error .ErrUnknownApp ∧
    (AppPool.App (os proxyFS) emptyPool "nope").2.heap = emptyPool.heap ∧
    (AppPool.App (os proxyFS) emptyPool "nope").2.apps = emptyPool.apps :=
  ⟨by decide,
   App_unknown_name (os proxyFS) emptyPool "nope" (by decide) (by decide)
    (Or.inl (by decide))⟩

/-- C6: for every registry and every application, after `remove` no key maps to
the application, every key that mapped to another application keeps its
value (and no key is added), `AppClosed` is called exactly once with the
application when it is set and not at all otherwise, and no application is
touched. -/
theorem remove_deletes_every_key_of_app (pool : World) (app : Nat) :
    (∀ k, (AppPool.remove pool app).apps.lookup k ≠ some app) ∧
    (∀ k, (AppPool.remove pool app).apps.lookup k =
      if pool.apps.lookup k = some app then none else pool.apps.lookup k) ∧
    (AppPool.remove pool app).closed =
      (if pool.AppClosed then pool.closed ++ [app] else pool.closed) ∧
    (AppPool.remove pool app).heap = pool.heap := by
  refine ⟨?_, lookup_remove pool app, ?_, ?_⟩
  · intro k
    rw [lookup_remove]
    by_cases h : pool.apps.lookup k = some app
    · simp [h]
    · simp [h]
  · unfold AppPool.remove
    by_cases hc : pool.AppClosed <;> simp [hc]
  · unfold AppPool.remove
    by_cases hc : pool.AppClosed <;> simp [hc]

/-- C7: for every application whose readiness signal has closed, whatever case
the outer select takes, `WaitTilReady` returns at once; if the death signal has
fired it returns `t.Err()` and leaves the application, `lastUse` included,
unchanged; otherwise it returns nil and the only change is `lastUse`, set to
the current time. -/
theorem WaitTilReady_death_has_priority (a : App) (now : Int) (pick : Bool)
    (hready : a.readyChan = true) :
    a.WaitTilReady now pick =
      if a.t.dying then some (a.t.Err, a) else some (none, { a with lastUse := now }) := by
  unfold App.WaitTilReady
  cases hd : a.t.dying <;> cases pick <;> simp [hready, hd]


/-- C7 at an application that is ready and dying, and at one that is ready and
alive. -/
theorem WaitTilReady_death_has_priority_witness :
    dyingApp.readyChan = true ∧
    dyingApp.WaitTilReady 5 true = some (some (.ErrUnexpectedExit "boom"), dyingApp) ∧
    (runningApp "blog").WaitTilReady 5 true =
      some (none, { runningApp "blog" with lastUse := 5 }) := by
  refine ⟨rfl, ?_, ?_⟩
  · have h := WaitTilReady_death_has_priority dyingApp 5 true rfl
    rw [h]; rfl
  · have h := WaitTilReady_death_has_priority (runningApp "blog") 5 true rfl
    rw [h]; rfl

/-- C8, the code evaluated at the failing input. The pool directory holds the
proxy descriptor `api`. `App` constructs application 0 for it; `Purge` kills and
awaits it, after which its tomb is dying and dead and the registry still maps
`api` to it; the next `App` for `api` returns application 0 again and allocates
nothing. A process-backed application in the same sequence is removed by its
output watcher, and the next `App` constructs application 1. -/
theorem Purge_leaves_dead_proxy_registered :
    ((AppPool.App (os proxyFS) emptyPool "api").1 = .ok 0 ∧
     (AppPool.Purge (os proxyFS) (AppPool.App (os proxyFS) emptyPool "api").2).apps.lookup "api"
       = some 0 ∧
     ((AppPool.Purge (os proxyFS) (AppPool.App (os proxyFS) emptyPool "api").2).heap[0]?).map
         (fun a => (a.hasCommand, a.t.dying, a.t.dead, a.Status)) = some (false, true, true, Dead) ∧
     (AppPool.App (os proxyFS)
         (AppPool.Purge (os proxyFS) (AppPool.App (os proxyFS) emptyPool "api").2) "api").1
       = .ok 0 ∧
     (AppPool.App (os proxyFS)
         (AppPool.Purge (os proxyFS) (AppPool.App (os proxyFS) emptyPool "api").2) "api").2.heap.length
       = 1) ∧
    ((AppPool.App (os linkFS) emptyPool "blog").1 = .ok 0 ∧
     (AppPool.Purge (os linkFS) (AppPool.App (os linkFS) emptyPool "blog").2).apps.lookup "blog"
       = none ∧
     (AppPool.App (os linkFS)
         (AppPool.Purge (os linkFS) (AppPool.App (os linkFS) emptyPool "blog").2) "blog").1
       = .ok 1) := by
  refine ⟨⟨rfl, rfl, rfl, rfl, rfl⟩, rfl, rfl, rfl⟩

/-- C9: for every descriptor for which `readProxy` succeeds, the returned
application has its readiness signal closed and its death signal not fired, so
`WaitTilReady` returns nil at once, whatever the clock and the select choice,
and `Status` is `Running`. -/
theorem readProxy_is_ready_at_once (os : OS) (pool : World) (name path : String) (app : App)
    (h : (AppPool.readProxy os pool name path).1 = .ok app) :
    app.readyChan = true ∧ app.t.dying = false ∧
    (∀ now pick, app.WaitTilReady now pick = some (none, { app with lastUse := now })) ∧
    app.Status = Running := by
  obtain ⟨hr, ht⟩ := readProxy_ok_shape os pool name path app h
  have hd : app.t.dying = false := by rw [ht]; rfl
  refine ⟨hr, hd, ?_, ?_⟩
  · intro now pick
    simp [App.WaitTilReady, hr, hd]
  · simp [App.Status, hr, hd]

/-- C9 at the descriptor `api`. -/
theorem readProxy_is_ready_at_once_witness :
    (AppPool.readProxy (os proxyFS) emptyPool "api" "/pool/api").1 = .ok apiApp ∧
    apiApp.readyChan = true ∧ apiApp.t.dying = false ∧
    (∀ now pick, apiApp.WaitTilReady now pick = some (none, { apiApp with lastUse := now })) ∧
    apiApp.Status = Running :=
  ⟨rfl, readProxy_is_ready_at_once (os proxyFS) emptyPool "api" "/pool/api" apiApp rfl⟩

/-- C10: for every descriptor content that, with the surrounding white space
trimmed, `strconv.Atoi` parses as the integer `n`, `readProxy` succeeds and the
application has scheme `http`, host `127.0.0.1` and port `n`; the result does
not depend on `url.Parse` or `net.SplitHostPort`. -/
theorem readProxy_bare_port (os : OS) (pool : World) (name path data : String) (n : Int)
    (hread : os.ReadFile path = .ok data)
    (hint : Atoi (TrimSpace data) = some n) :
    (∃ app, (AppPool.readProxy os pool name path).1 = .ok app ∧
      app.Scheme = "http" ∧ app.Host = "127.0.0.1" ∧ app.Port = n) ∧
    (∀ f g, AppPool.readProxy { os with urlParse := f, SplitHostPort := g } pool name path =
      AppPool.readProxy os pool name path) := by
  constructor
  · refine ⟨{ (App.SetAddress
        { Name := name, Scheme := "", Host := "", Port := 0, hasCommand := false, pid := 0,
          Public := false, address := "", dir := "", t := Tomb.zero,
          lastUse := pool.now, readyChan := false } "http" "127.0.0.1" n) with
        readyChan := true }, ?_, ?_⟩
    · simp only [AppPool.readProxy, hread, hint]
    · simp [SetAddress_flags]
  · intro f g
    simp only [AppPool.readProxy, hread, hint]


/-- C10 at a descriptor with the content 8080 between white space. -/
theorem readProxy_bare_port_witness :
    ((os proxyFS).ReadFile "/pool/api" = .ok " 8080\n" ∧ Atoi (TrimSpace " 8080\n") = some 8080) ∧
    ∃ app, (AppPool.readProxy (os proxyFS) emptyPool "api" "/pool/api").1 = .ok app ∧
      app.Scheme = "http" ∧ app.Host = "127.0.0.1" ∧ app.Port = 8080 :=
  ⟨⟨rfl, by decide⟩,
   (readProxy_bare_port (os proxyFS) emptyPool "api" "/pool/api" " 8080\n" 8080 rfl
    (by decide)).1⟩

end Dev
